import Mathlib

/-!
Verification development for `bravepython` (`src/__init__.py`), a scraping
client for Brave Search's HTML endpoint.  The Python source is shallowly
embedded below: pure string manipulation is modelled on `List Char`, the
paginating generator `search` is modelled as a fueled loop over an abstract
fetcher, and Python `int`s are modelled as `Int`.
-/

namespace Brave

/-! ## Percent decoding (`urllib.parse.unquote`) and query-string parsing
(`urllib.parse.parse_qs`), as used by `_unwrap_brave_redirect`. -/

/-- Value of a hexadecimal digit character, `none` for non-hex characters.
Mirrors membership in CPython's two-hex-digit `_hextobyte` table. -/
def hexDigitVal (c : Char) : Option Nat :=
  if '0' ≤ c ∧ c ≤ '9' then some (c.toNat - 48)
  else if 'a' ≤ c ∧ c ≤ 'f' then some (c.toNat - 87)
  else if 'A' ≤ c ∧ c ≤ 'F' then some (c.toNat - 55)
  else none

/-- Percent-decoding at byte level, as `urllib.parse.unquote` does: a `%`
followed by exactly two hex digits becomes the corresponding byte, any other
`%` is kept verbatim.  (The embedding represents each decoded byte as the
`Char` of its code point; the claims only exercise ASCII data, where this
coincides with Python's UTF-8 decoding.) -/
def percentDecodeChars : List Char → List Char
  | [] => []
  | '%' :: c1 :: c2 :: rest =>
    match hexDigitVal c1, hexDigitVal c2 with
    | some h, some l => Char.ofNat (16 * h + l) :: percentDecodeChars rest
    | _, _ => '%' :: percentDecodeChars (c1 :: c2 :: rest)
  | c :: rest => c :: percentDecodeChars rest

/-- Model of `urllib.parse.unquote` on a `String`. -/
def unquote (s : String) : String :=
  String.mk (percentDecodeChars s.data)

/-- The `+` → space replacement `parse_qsl` applies before percent-decoding
each name and value. -/
def plusToSpace (l : List Char) : List Char :=
  l.map (fun c => if c = '+' then ' ' else c)

/-- Decoding applied by `parse_qsl` to each field name and value:
`unquote(s.replace('+', ' '))`. -/
def decodeQsComponent (l : List Char) : List Char :=
  percentDecodeChars (plusToSpace l)

/-- Python `str.split(sep)` for a single-character separator. -/
def splitOnChar (sep : Char) : List Char → List (List Char)
  | [] => [[]]
  | c :: rest =>
    let r := splitOnChar sep rest
    if c = sep then [] :: r
    else
      match r with
      | [] => [[c]]
      | h :: t => (c :: h) :: t

/-- Split a field at its first `=`: `name=value` becomes `(name, value)`,
`none` when no `=` occurs (mirrors `name_value.split('=', 1)`). -/
def splitFirstEq : List Char → Option (List Char × List Char)
  | [] => none
  | '=' :: rest => some ([], rest)
  | c :: rest =>
    match splitFirstEq rest with
    | none => none
    | some (n, v) => some (c :: n, v)

/-- One field of `parse_qsl` with the default `keep_blank_values=False`:
empty fields, fields without `=`, and fields with an empty raw value are
dropped; otherwise name and value are `+`-replaced and percent-decoded. -/
def parseQslField (field : List Char) : Option (List Char × List Char) :=
  if field = [] then none
  else
    match splitFirstEq field with
    | none => none
    | some (n, v) =>
      if v = [] then none
      else some (decodeQsComponent n, decodeQsComponent v)

/-- Model of `urllib.parse.parse_qsl` with default arguments: split on `&`, keep the
decoded `(name, value)` pairs in order. -/
def parseQsl (qs : List Char) : List (List Char × List Char) :=
  (splitOnChar '&' qs).filterMap parseQslField

/-- First value stored under `key` by `parse_qs`: since `parse_qs` builds the
dict's per-key value lists in field order, `qs[key][0]` is the value of the
first field whose decoded name equals `key` (and `"url" in qs and qs["url"]`
holds exactly when such a field exists). -/
def qsFirst (key : List Char) (pairs : List (List Char × List Char)) :
    Option (List Char) :=
  (pairs.find? (fun p => decide (p.1 = key))).map Prod.snd

/-- Query component of a URL as extracted by `urllib.parse.urlparse`:
the fragment (everything from the first `#`) is stripped first, then the
query is everything after the first `?` of what remains. -/
def urlQuery (link : List Char) : List Char :=
  match (link.takeWhile (fun c => c ≠ '#')).dropWhile (fun c => c ≠ '?') with
  | [] => []
  | _ :: rest => rest

/-! ## `_unwrap_brave_redirect` -/

/-- Whether `_REDIRECT_RE = re.compile(r"https?://search\.brave\.com/redirect")`
matches via `re.match`, i.e. anchored at the start of the string: the link
starts with `http://search.brave.com/redirect` or
`https://search.brave.com/redirect`. -/
def redirectMatch (link : List Char) : Bool :=
  ("https://search.brave.com/redirect".data).isPrefixOf link ||
    ("http://search.brave.com/redirect".data).isPrefixOf link

/-- Model of `_unwrap_brave_redirect`: pass non-matching links through unchanged;
otherwise look up `parse_qs(urlparse(link).query)["url"][0]` and `unquote` it,
falling back to the original link when no `url` field is present. -/
def unwrapBraveRedirect (link : String) : String :=
  if redirectMatch link.data then
    match qsFirst ("url".data) (parseQsl (urlQuery link.data)) with
    | some v => String.mk (percentDecodeChars v)
    | none => link
  else link

example :
    unwrapBraveRedirect
        "https://search.brave.com/redirect?url=https%3A%2F%2Fexample.com%2Fpath"
      = "https://example.com/path" := by decide

example :
    unwrapBraveRedirect "https://search.brave.com/redirect?ref=x"
      = "https://search.brave.com/redirect?ref=x" := by decide

example : unwrapBraveRedirect "https://example.org/" = "https://example.org/" := by
  decide

example :
    unwrapBraveRedirect
        "https://search.brave.com/redirect?url=https%253A%252F%252Fexample.com"
      = "https://example.com" := by decide

/-! ## `get_useragent`

`random.randint(lo, hi)` draws uniformly from the inclusive range
`[lo, hi]`.  The ambient random source is modelled as a stream
`g : Nat → Nat` of raw draws, the i-th call to `randint` consuming `g i`
and mapping it into its range. -/

/-- Model of `random.randint lo hi` fed by one raw draw `r`: a value in the inclusive range from `lo` to `hi`. -/
def randint (lo hi : Nat) (r : Nat) : Nat :=
  lo + r % (hi + 1 - lo)

/-- Model of `get_useragent`: the four f-string tokens of the Lynx-style User-Agent,
with the ten `randint` calls in source order consuming `g 0, …, g 9`. -/
def get_useragent (g : Nat → Nat) : String :=
  let lynx := "Lynx/" ++ Nat.repr (randint 2 3 (g 0)) ++ "." ++
    Nat.repr (randint 8 9 (g 1)) ++ "." ++ Nat.repr (randint 0 2 (g 2))
  let libwww := "libwww-FM/" ++ Nat.repr (randint 2 3 (g 3)) ++ "." ++
    Nat.repr (randint 13 15 (g 4))
  let ssl_mm := "SSL-MM/" ++ Nat.repr (randint 1 2 (g 5)) ++ "." ++
    Nat.repr (randint 3 5 (g 6))
  let openssl := "OpenSSL/" ++ Nat.repr (randint 1 3 (g 7)) ++ "." ++
    Nat.repr (randint 0 4 (g 8)) ++ "." ++ Nat.repr (randint 0 9 (g 9))
  lynx ++ " " ++ libwww ++ " " ++ ssl_mm ++ " " ++ openssl

/-! ## The `search` orchestrator

`search` is a generator driving `_req` (the page fetcher) and BeautifulSoup
extraction.  The embedding abstracts one fetch-plus-extract round as a
function from the request parameters to either the page's extracted
snippets or a `RequestFailure` (non-2xx status from `raise_for_status`, or
a transport error).  A snippet is modelled by what the extraction reads
from it: its first anchor (`select_one("a")`, absent in malformed hits)
carrying `href` and text, and its optional description tag
(`select_one(".snippet-content, p")`).  The lazily yielded sequence is
reified as the trace of yielded values followed by the terminating
outcome; laziness means a consumer observes the yields in trace order
before the outcome.  The `while` loop need not terminate (e.g. endless
all-duplicate pages under `unique=True`), so the loop takes fuel counting
its iterations; `Outcome.fuelOut` marks the artificial cutoff. -/

/-- First anchor of a snippet: its `href` attribute and its visible text. -/
structure Anchor where
  href : String
  text : String
deriving DecidableEq

/-- One `div.snippet` result block, as seen by the extraction code. -/
structure Snippet where
  anchor : Option Anchor
  descTag : Option String
deriving DecidableEq

/-- Query parameters the orchestrator hands `_req` (the remaining `_req`
arguments — `lang`, `safe`, `proxies`, `timeout`, `ssl_verify` — are fixed
across one `search` invocation and folded into the abstract fetcher). -/
structure ReqParams where
  q : String
  offset : Int
  count : Int
deriving DecidableEq

/-- Result of one `_req` + parse round: extracted snippets, or a
`RequestFailure` raised by the fetch. -/
inductive FetchResult
  | ok (snippets : List Snippet)
  | fail
deriving DecidableEq

/-- The abstract fetcher: `_req` composed with snippet extraction. -/
abbrev Fetcher := ReqParams → FetchResult

/-- A value yielded by `search`: a bare URL, or a `SearchResult`
(`advanced=True`) carrying url, title and description (its `response`
field, kept only for diagnostics, is not modelled). -/
inductive OutVal
  | plain (url : String)
  | rich (url : String) (title : String) (desc : String)
deriving DecidableEq

/-- URL carried by a yielded value. -/
def OutVal.url : OutVal → String
  | .plain u => u
  | .rich u _ _ => u

/-- How a `search` run ended: the `while` loop exited normally (target
reached or empty page), a fetch raised, or the modelling fuel ran out
mid-loop. -/
inductive Outcome
  | finished
  | failed
  | fuelOut
deriving DecidableEq

/-- Observable trace of one `search` invocation: values in yield order,
the `_req` calls in issue order, the final `fetched` counter, and how the
run ended. -/
structure RunResult where
  yields : List OutVal
  calls : List ReqParams
  finalFetched : Int
  outcome : Outcome
deriving DecidableEq

/-- The `for snip in snippets` body: skip anchor-less snippets, unwrap the
redirect, dedupe when `unique`, build the yielded value, bump `fetched`,
and `break` once `fetched` reaches `num_results`.  Returns the values
yielded from this page together with the updated `fetched` and `seen`. -/
def procSnips (advanced unique : Bool) (numResults : Int) :
    List Snippet → Int → List String → List OutVal × Int × List String
  | [], fetched, seen => ([], fetched, seen)
  | snip :: rest, fetched, seen =>
    match snip.anchor with
    | none => procSnips advanced unique numResults rest fetched seen
    | some a =>
      let url := unwrapBraveRedirect a.href
      if unique ∧ url ∈ seen then
        procSnips advanced unique numResults rest fetched seen
      else
        let seen' := if url ∈ seen then seen else seen ++ [url]
        let title := a.text
        let desc := match snip.descTag with
          | some d => d
          | none => ""
        let out := if advanced then OutVal.rich url title desc
          else OutVal.plain url
        let fetched' := fetched + 1
        if numResults ≤ fetched' then ([out], fetched', seen')
        else
          let r := procSnips advanced unique numResults rest fetched' seen'
          (out :: r.1, r.2)

/-- The `while fetched < num_results` loop, one fuel unit per iteration:
fetch the page at the current offset with the hard-coded `count=10`,
stop on a fetch failure or an empty page, otherwise process the snippets
and advance `offset` by 10. -/
def searchLoop (term : String) (fetch : Fetcher) (numResults : Int)
    (advanced unique : Bool) :
    Nat → Int → Int → List String → RunResult
  | 0, fetched, _, _ =>
    if fetched < numResults then ⟨[], [], fetched, .fuelOut⟩
    else ⟨[], [], fetched, .finished⟩
  | fuel + 1, fetched, offset, seen =>
    if fetched < numResults then
      match fetch ⟨term, offset, 10⟩ with
      | .fail => ⟨[], [⟨term, offset, 10⟩], fetched, .failed⟩
      | .ok snippets =>
        if snippets.isEmpty then ⟨[], [⟨term, offset, 10⟩], fetched, .finished⟩
        else
          let p := procSnips advanced unique numResults snippets fetched seen
          let r := searchLoop term fetch numResults advanced unique
            fuel p.2.1 (offset + 10) p.2.2
          ⟨p.1 ++ r.yields, ⟨term, offset, 10⟩ :: r.calls, r.finalFetched,
            r.outcome⟩
    else ⟨[], [], fetched, .finished⟩

/-- One `search(term, num_results, …)` invocation: `fetched = 0`, empty
`seen` set, `offset = start_num`. -/
def searchRun (term : String) (fetch : Fetcher) (numResults : Int)
    (advanced unique : Bool) (startNum : Int) (fuel : Nat) : RunResult :=
  searchLoop term fetch numResults advanced unique fuel 0 startNum []

/-! ## Helper lemmas on the string machinery -/

lemma takeWhile_all {α} (p : α → Bool) :
    ∀ (l : List α), (∀ c ∈ l, p c = true) → l.takeWhile p = l := by
  intro l
  induction l with
  | nil => intro _; rfl
  | cons a l ih =>
    intro h
    have ha := h a (List.mem_cons_self a l)
    simp [List.takeWhile, ha, ih fun c hc => h c (List.mem_cons_of_mem a hc)]

lemma takeWhile_append_all {α} (p : α → Bool) :
    ∀ (l1 l2 : List α), (∀ c ∈ l1, p c = true) →
      (l1 ++ l2).takeWhile p = l1 ++ l2.takeWhile p := by
  intro l1 l2
  induction l1 with
  | nil => intro _; rfl
  | cons a l ih =>
    intro h
    have ha := h a (List.mem_cons_self a l)
    simp [List.takeWhile, ha, ih fun c hc => h c (List.mem_cons_of_mem a hc)]

lemma dropWhile_append_all {α} (p : α → Bool) :
    ∀ (l1 l2 : List α), (∀ c ∈ l1, p c = true) →
      (l1 ++ l2).dropWhile p = l2.dropWhile p := by
  intro l1 l2
  induction l1 with
  | nil => intro _; rfl
  | cons a l ih =>
    intro h
    have ha := h a (List.mem_cons_self a l)
    simp [List.dropWhile, ha, ih fun c hc => h c (List.mem_cons_of_mem a hc)]

lemma splitOnChar_no_sep (sep : Char) :
    ∀ (l : List Char), sep ∉ l → splitOnChar sep l = [l] := by
  intro l
  induction l with
  | nil => intro _; rfl
  | cons c rest ih =>
    intro h
    have hc : ¬ c = sep := fun e => h (e ▸ List.mem_cons_self c rest)
    have hr : sep ∉ rest := fun e => h (List.mem_cons_of_mem c e)
    simp [splitOnChar, hc, ih hr]

/-! ## Claims about `_unwrap_brave_redirect` -/

/-- C2: a link matching the redirect pattern whose query string carries a
`url` parameter resolves to the `unquote` (percent-decode) of the first
value `parse_qs` stored for that parameter. -/
theorem unwrap_redirect_url_param (link : String) (v : List Char)
    (hm : redirectMatch link.data = true)
    (hv : qsFirst ("url".data) (parseQsl (urlQuery link.data)) = some v) :
    unwrapBraveRedirect link = unquote (String.mk v) := by
  simp [unwrapBraveRedirect, unquote, hm, hv]

/-- Witness for C2: the spec's concrete redirect URL resolves to
`https://example.com/path`. -/
theorem unwrap_redirect_url_param_witness :
    unwrapBraveRedirect
        "https://search.brave.com/redirect?url=https%3A%2F%2Fexample.com%2Fpath"
      = "https://example.com/path" :=
  (unwrap_redirect_url_param
      "https://search.brave.com/redirect?url=https%3A%2F%2Fexample.com%2Fpath"
      ("https://example.com/path".data) (by decide) (by decide)).trans (by decide)

/-- C5: a link that does not match the redirect pattern passes through the
unwrapper unchanged, so the unwrapper is idempotent on any of its outputs
that is not itself a redirect link. -/
theorem unwrap_nonredirect_identity :
    (∀ link : String, redirectMatch link.data = false →
        unwrapBraveRedirect link = link) ∧
      (∀ link : String, redirectMatch (unwrapBraveRedirect link).data = false →
        unwrapBraveRedirect (unwrapBraveRedirect link) = unwrapBraveRedirect link) := by
  have h1 : ∀ link : String, redirectMatch link.data = false →
      unwrapBraveRedirect link = link := by
    intro link h
    simp [unwrapBraveRedirect, h]
  exact ⟨h1, fun link h => h1 (unwrapBraveRedirect link) h⟩

/-- Witness for C5 at the spec's concrete non-redirect URL. -/
theorem unwrap_nonredirect_identity_witness :
    unwrapBraveRedirect "https://example.org/" = "https://example.org/" ∧
      unwrapBraveRedirect (unwrapBraveRedirect "https://example.org/")
        = unwrapBraveRedirect "https://example.org/" :=
  ⟨unwrap_nonredirect_identity.1 "https://example.org/" (by decide),
    unwrap_nonredirect_identity.2 "https://example.org/" (by decide)⟩

/-- C6: a link matching the redirect pattern whose query string has no
`url` field is returned unchanged rather than raising. -/
theorem unwrap_no_url_param (link : String)
    (hm : redirectMatch link.data = true)
    (hv : qsFirst ("url".data) (parseQsl (urlQuery link.data)) = none) :
    unwrapBraveRedirect link = link := by
  simp [unwrapBraveRedirect, hm, hv]

/-- Witness for C6 at the spec's concrete `?ref=x` redirect URL. -/
theorem unwrap_no_url_param_witness :
    unwrapBraveRedirect "https://search.brave.com/redirect?ref=x"
      = "https://search.brave.com/redirect?ref=x" :=
  unwrap_no_url_param "https://search.brave.com/redirect?ref=x"
    (by decide) (by decide)

lemma urlQuery_redirect (w : List Char) (hh : '#' ∉ w) :
    urlQuery ("https://search.brave.com/redirect?url=".data ++ w)
      = "url=".data ++ w := by
  unfold urlQuery
  rw [takeWhile_append_all _ _ _ (by decide),
    takeWhile_all _ w (by intro c hc; simp; exact fun e => hh (e ▸ hc))]
  rw [show "https://search.brave.com/redirect?url=".data
      = "https://search.brave.com/redirect".data ++ ('?' :: "url=".data) from by decide,
    List.append_assoc, dropWhile_append_all _ _ _ (by decide)]
  simp [List.dropWhile]

lemma parseQsl_single (w : List Char) (hne : w ≠ []) (ha : '&' ∉ w) :
    parseQsl ("url=".data ++ w) = [("url".data, decodeQsComponent w)] := by
  have hsep : '&' ∉ ("url=".data ++ w) := by
    intro hmem
    rcases List.mem_append.1 hmem with h | h
    · revert h; decide
    · exact ha h
  rw [parseQsl, splitOnChar_no_sep _ _ hsep]
  have hsf : splitFirstEq ('u' :: 'r' :: 'l' :: '=' :: w)
      = some (['u', 'r', 'l'], w) := rfl
  simp [List.filterMap, parseQslField, hsf, hne,
    show decodeQsComponent ['u', 'r', 'l'] = ['u', 'r', 'l'] from by decide]

lemma redirectMatch_prefixed (w : List Char) :
    redirectMatch ("https://search.brave.com/redirect?url=".data ++ w) = true := by
  unfold redirectMatch
  rw [show "https://search.brave.com/redirect?url=".data
      = "https://search.brave.com/redirect".data ++ ("?url=".data) from by decide,
    List.append_assoc]
  have hp : ("https://search.brave.com/redirect".data).isPrefixOf
      ("https://search.brave.com/redirect".data ++ ("?url=".data ++ w)) = true := by
    rw [ List.isPrefixOf_iff_prefix]
    exact List.prefix_append _ _
  rw [hp, Bool.true_or]

/-- C10: because `parse_qs` percent-decodes once and the code then calls
`unquote` on the already-decoded value, a redirect link whose raw `url`
field is `w` resolves to the TWICE percent-decoded `w` (after the `+` →
space step of query parsing), not to its once-decoded value. -/
theorem unwrap_double_decode (w : List Char) (hne : w ≠ [])
    (hh : '#' ∉ w) (ha : '&' ∉ w) :
    unwrapBraveRedirect (String.mk ("https://search.brave.com/redirect?url=".data ++ w))
      = String.mk (percentDecodeChars (percentDecodeChars (plusToSpace w))) := by
  unfold unwrapBraveRedirect
  rw [show (String.mk ("https://search.brave.com/redirect?url=".data ++ w)).data
      = "https://search.brave.com/redirect?url=".data ++ w from rfl,
    redirectMatch_prefixed w]
  rw [urlQuery_redirect w hh, parseQsl_single w hne ha]
  simp [qsFirst, List.find?, decodeQsComponent]

/-- Witness for C10: a doubly-escaped `url` value decodes twice — the
once-decoded value would still read `https%3A%2F%2Fexample.com`, the
returned destination is `https://example.com`. -/
theorem unwrap_double_decode_witness :
    unwrapBraveRedirect
        (String.mk ("https://search.brave.com/redirect?url=".data ++
          "https%253A%252F%252Fexample.com".data))
      = "https://example.com" :=
  (unwrap_double_decode ("https%253A%252F%252Fexample.com".data)
    (by decide) (by decide) (by decide)).trans (by decide)

end Brave

namespace Brave

/-! ## Claim about `get_useragent` -/

lemma randint_bounds (lo hi r : Nat) (h : lo ≤ hi) :
    lo ≤ randint lo hi r ∧ randint lo hi r ≤ hi := by
  unfold randint
  have hm : r % (hi + 1 - lo) < hi + 1 - lo := Nat.mod_lt _ (by omega)
  omega

lemma no_space_repr (n : Nat) (h : n ≤ 15) : ∀ ch ∈ (Nat.repr n).data, ch ≠ ' ' := by
  interval_cases n <;> decide

lemma no_space_append (s t : String) (hs : ∀ ch ∈ s.data, ch ≠ ' ')
    (ht : ∀ ch ∈ t.data, ch ≠ ' ') : ∀ ch ∈ (s ++ t).data, ch ≠ ' ' := by
  intro ch hch
  rw [String.data_append] at hch
  rcases List.mem_append.1 hch with h | h
  · exact hs ch h
  · exact ht ch h

/-- C8: every generated User-Agent string, whatever the random source
yields, is exactly four space-separated tokens — the Lynx, libwww-FM,
SSL-MM and OpenSSL signatures — whose version components sit inside the
fixed `randint` bounds of the source; generation is total (the function
returns a string for every random stream). -/
theorem useragent_four_tokens (g : Nat → Nat) :
    ∃ t1 t2 t3 t4 : String,
      get_useragent g = t1 ++ " " ++ t2 ++ " " ++ t3 ++ " " ++ t4 ∧
      (∀ ch ∈ t1.data, ch ≠ ' ') ∧ (∀ ch ∈ t2.data, ch ≠ ' ') ∧
      (∀ ch ∈ t3.data, ch ≠ ' ') ∧ (∀ ch ∈ t4.data, ch ≠ ' ') ∧
      ∃ a b c d e f h i j k : Nat,
        t1 = "Lynx/" ++ Nat.repr a ++ "." ++ Nat.repr b ++ "." ++ Nat.repr c ∧
        t2 = "libwww-FM/" ++ Nat.repr d ++ "." ++ Nat.repr e ∧
        t3 = "SSL-MM/" ++ Nat.repr f ++ "." ++ Nat.repr h ∧
        t4 = "OpenSSL/" ++ Nat.repr i ++ "." ++ Nat.repr j ++ "." ++ Nat.repr k ∧
        2 ≤ a ∧ a ≤ 3 ∧ 8 ≤ b ∧ b ≤ 9 ∧ c ≤ 2 ∧
        2 ≤ d ∧ d ≤ 3 ∧ 13 ≤ e ∧ e ≤ 15 ∧
        1 ≤ f ∧ f ≤ 2 ∧ 3 ≤ h ∧ h ≤ 5 ∧
        1 ≤ i ∧ i ≤ 3 ∧ j ≤ 4 ∧ k ≤ 9 := by
  obtain ⟨ha1, ha2⟩ := randint_bounds 2 3 (g 0) (by norm_num)
  obtain ⟨hb1, hb2⟩ := randint_bounds 8 9 (g 1) (by norm_num)
  obtain ⟨hc1, hc2⟩ := randint_bounds 0 2 (g 2) (by norm_num)
  obtain ⟨hd1, hd2⟩ := randint_bounds 2 3 (g 3) (by norm_num)
  obtain ⟨he1, he2⟩ := randint_bounds 13 15 (g 4) (by norm_num)
  obtain ⟨hf1, hf2⟩ := randint_bounds 1 2 (g 5) (by norm_num)
  obtain ⟨hg1, hg2⟩ := randint_bounds 3 5 (g 6) (by norm_num)
  obtain ⟨hi1, hi2⟩ := randint_bounds 1 3 (g 7) (by norm_num)
  obtain ⟨hj1, hj2⟩ := randint_bounds 0 4 (g 8) (by norm_num)
  obtain ⟨hk1, hk2⟩ := randint_bounds 0 9 (g 9) (by norm_num)
  refine ⟨"Lynx/" ++ Nat.repr (randint 2 3 (g 0)) ++ "." ++ Nat.repr (randint 8 9 (g 1))
        ++ "." ++ Nat.repr (randint 0 2 (g 2)),
      "libwww-FM/" ++ Nat.repr (randint 2 3 (g 3)) ++ "." ++ Nat.repr (randint 13 15 (g 4)),
      "SSL-MM/" ++ Nat.repr (randint 1 2 (g 5)) ++ "." ++ Nat.repr (randint 3 5 (g 6)),
      "OpenSSL/" ++ Nat.repr (randint 1 3 (g 7)) ++ "." ++ Nat.repr (randint 0 4 (g 8))
        ++ "." ++ Nat.repr (randint 0 9 (g 9)),
      rfl, ?_, ?_, ?_, ?_,
      randint 2 3 (g 0), randint 8 9 (g 1), randint 0 2 (g 2),
      randint 2 3 (g 3), randint 13 15 (g 4),
      randint 1 2 (g 5), randint 3 5 (g 6),
      randint 1 3 (g 7), randint 0 4 (g 8), randint 0 9 (g 9),
      rfl, rfl, rfl, rfl,
      ha1, ha2, hb1, hb2, hc2, hd1, hd2, he1, he2, hf1, hf2, hg1, hg2,
      hi1, hi2, hj2, hk2⟩ <;>
    repeat' apply no_space_append
  all_goals first
    | decide
    | · apply no_space_repr
        omega

/-! ## Claims about the `search` orchestrator -/

lemma outUrl_mk (advanced : Bool) (u t d : String) :
    OutVal.url (if advanced then OutVal.rich u t d else OutVal.plain u) = u := by
  cases advanced <;> rfl

lemma procSnips_fetched (adv uniq : Bool) (N : Int) :
    ∀ (snips : List Snippet) (fetched : Int) (seen : List String),
      (procSnips adv uniq N snips fetched seen).2.1
        = fetched + ((procSnips adv uniq N snips fetched seen).1.length : Int) := by
  intro snips
  induction snips with
  | nil => intro fetched seen; simp [procSnips]
  | cons snip rest ih =>
    intro fetched seen
    cases hsnip : snip.anchor with
    | none => simp [procSnips, hsnip, ih]
    | some a =>
      by_cases hdup : (uniq = true) ∧ unwrapBraveRedirect a.href ∈ seen
      · obtain ⟨huniq, hmem⟩ := hdup
        subst huniq
        simp [procSnips, hsnip, hmem, ih]
      · by_cases hbr : N ≤ fetched + 1
        · simp [procSnips, hsnip, hdup, hbr]
        · simp [procSnips, hsnip, hdup, hbr, ih]
          omega


lemma procSnips_count (adv : Bool) (N : Int) :
    ∀ (snips : List Snippet) (fetched : Int) (seen : List String),
      (∀ s ∈ snips, s.anchor.isSome = true) → fetched < N →
      ((procSnips adv false N snips fetched seen).1.length : Int)
        = min (snips.length : Int) (N - fetched) := by
  intro snips
  induction snips with
  | nil => intro fetched seen _ hlt; simp [procSnips]; omega
  | cons snip rest ih =>
    intro fetched seen hanch hlt
    have hs := hanch snip (List.mem_cons_self snip rest)
    cases hsnip : snip.anchor with
    | none => rw [hsnip] at hs; simp at hs
    | some a =>
      have hdup : ¬ ((false = true) ∧ unwrapBraveRedirect a.href ∈ seen) := by
        simp
      by_cases hbr : N ≤ fetched + 1
      · simp [procSnips, hsnip, hdup, hbr]
        omega
      · have ihr := ih (fetched + 1)
          (if unwrapBraveRedirect a.href ∈ seen then seen
            else seen ++ [unwrapBraveRedirect a.href])
          (fun s hsm => hanch s (List.mem_cons_of_mem snip hsm)) (by omega)
        simp [procSnips, hsnip, hdup, hbr, ihr]
        omega


lemma searchLoop_done (term : String) (fetch : Fetcher) (N : Int)
    (adv uniq : Bool) (fuel : Nat) (fetched offset : Int) (seen : List String)
    (h : ¬ fetched < N) :
    searchLoop term fetch N adv uniq fuel fetched offset seen
      = ⟨[], [], fetched, .finished⟩ := by
  cases fuel <;> simp [searchLoop, h]

lemma searchLoop_fail (term : String) (fetch : Fetcher) (N : Int)
    (adv uniq : Bool) (fuel : Nat) (fetched offset : Int) (seen : List String)
    (h1 : fetched < N) (h2 : fetch ⟨term, offset, 10⟩ = .fail) :
    searchLoop term fetch N adv uniq (fuel + 1) fetched offset seen
      = ⟨[], [⟨term, offset, 10⟩], fetched, .failed⟩ := by
  simp [searchLoop, h1, h2]

lemma searchLoop_emptyPage (term : String) (fetch : Fetcher) (N : Int)
    (adv uniq : Bool) (fuel : Nat) (fetched offset : Int) (seen : List String)
    (h1 : fetched < N) (h2 : fetch ⟨term, offset, 10⟩ = .ok []) :
    searchLoop term fetch N adv uniq (fuel + 1) fetched offset seen
      = ⟨[], [⟨term, offset, 10⟩], fetched, .finished⟩ := by
  simp [searchLoop, h1, h2]

lemma searchLoop_step (term : String) (fetch : Fetcher) (N : Int)
    (adv uniq : Bool) (fuel : Nat) (fetched offset : Int) (seen : List String)
    (snips : List Snippet)
    (h1 : fetched < N) (h2 : fetch ⟨term, offset, 10⟩ = .ok snips)
    (h3 : snips ≠ []) :
    searchLoop term fetch N adv uniq (fuel + 1) fetched offset seen
      = ⟨(procSnips adv uniq N snips fetched seen).1 ++
            (searchLoop term fetch N adv uniq fuel
              (procSnips adv uniq N snips fetched seen).2.1 (offset + 10)
              (procSnips adv uniq N snips fetched seen).2.2).yields,
          ⟨term, offset, 10⟩ ::
            (searchLoop term fetch N adv uniq fuel
              (procSnips adv uniq N snips fetched seen).2.1 (offset + 10)
              (procSnips adv uniq N snips fetched seen).2.2).calls,
          (searchLoop term fetch N adv uniq fuel
            (procSnips adv uniq N snips fetched seen).2.1 (offset + 10)
            (procSnips adv uniq N snips fetched seen).2.2).finalFetched,
          (searchLoop term fetch N adv uniq fuel
            (procSnips adv uniq N snips fetched seen).2.1 (offset + 10)
            (procSnips adv uniq N snips fetched seen).2.2).outcome⟩ := by
  cases snips with
  | nil => exact absurd rfl h3
  | cons s rest => simp [searchLoop, h1, h2]


/-- C9: with `num_results ≤ 0` the `while fetched < num_results` condition
fails before the first iteration: no value is yielded and no request is
issued, whatever the fetcher, flags, start offset or fuel. -/
theorem search_nonpositive_target (term : String) (fetch : Fetcher) (N : Int)
    (adv uniq : Bool) (start : Int) (fuel : Nat) (h : N ≤ 0) :
    searchRun term fetch N adv uniq start fuel = ⟨[], [], 0, .finished⟩ :=
  searchLoop_done term fetch N adv uniq fuel 0 start [] (by omega)

/-- Witness for C9 at `num_results = 0`. -/
theorem search_nonpositive_target_witness :
    searchRun "q" (fun _ => FetchResult.ok []) 0 false false 0 3
      = ⟨[], [], 0, .finished⟩ :=
  search_nonpositive_target "q" (fun _ => FetchResult.ok []) 0 false false 0 3
    (by norm_num)

/-- C7: when the first fetched page extracts zero snippets the loop breaks
at once: one fetch call, no yields, normal termination. -/
theorem search_empty_first_page (term : String) (fetch : Fetcher) (N : Int)
    (adv uniq : Bool) (start : Int) (fuel : Nat)
    (hN : 0 < N) (hfuel : 1 ≤ fuel)
    (he : fetch ⟨term, start, 10⟩ = .ok []) :
    searchRun term fetch N adv uniq start fuel
      = ⟨[], [⟨term, start, 10⟩], 0, .finished⟩ := by
  obtain ⟨k, rfl⟩ : ∃ k, fuel = k + 1 := ⟨fuel - 1, by omega⟩
  exact searchLoop_emptyPage term fetch N adv uniq k 0 start [] (by omega) he

/-- Witness for C7 with a fetcher whose first page is empty. -/
theorem search_empty_first_page_witness :
    searchRun "q" (fun _ => FetchResult.ok []) 10 false false 0 1
      = ⟨[], [⟨"q", 0, 10⟩], 0, .finished⟩ :=
  search_empty_first_page "q" (fun _ => FetchResult.ok []) 10 false false 0 1
    (by norm_num) (by norm_num) rfl


/-- C1: `num_results = 15` against a fetcher giving 10 anchored hits per
page (dedup off, so none skipped or deduplicated): exactly 15 values are
yielded over exactly 2 fetch calls, whose offsets are 0 then 10 and whose
`count` argument is the hard-coded 10 regardless of the requested 15. -/
theorem search_fifteen_two_pages (term : String) (fetch : Fetcher)
    (adv : Bool) (s0 s1 : List Snippet) (fuel : Nat)
    (h0 : fetch ⟨term, 0, 10⟩ = .ok s0) (h1 : fetch ⟨term, 10, 10⟩ = .ok s1)
    (hl0 : s0.length = 10) (hl1 : s1.length = 10)
    (ha0 : ∀ s ∈ s0, s.anchor.isSome = true)
    (ha1 : ∀ s ∈ s1, s.anchor.isSome = true)
    (hfuel : 2 ≤ fuel) :
    (searchRun term fetch 15 adv false 0 fuel).yields.length = 15 ∧
      (searchRun term fetch 15 adv false 0 fuel).calls
        = [⟨term, 0, 10⟩, ⟨term, 10, 10⟩] ∧
      (∀ p ∈ (searchRun term fetch 15 adv false 0 fuel).calls, p.count = 10) ∧
      (searchRun term fetch 15 adv false 0 fuel).outcome = .finished := by
  obtain ⟨k, rfl⟩ : ∃ k, fuel = k + 1 + 1 := ⟨fuel - 2, by omega⟩
  have hne0 : s0 ≠ [] := by intro e; rw [e] at hl0; simp at hl0
  have hne1 : s1 ≠ [] := by intro e; rw [e] at hl1; simp at hl1
  unfold searchRun
  rw [searchLoop_step term fetch 15 adv false (k + 1) 0 0 [] s0 (by norm_num) h0 hne0]
  have hc0 : ((procSnips adv false 15 s0 0 []).1.length : Int)
      = min (s0.length : Int) (15 - 0) :=
    procSnips_count adv 15 s0 0 [] ha0 (by norm_num)
  rw [hl0] at hc0
  have hlen0 : (procSnips adv false 15 s0 0 []).1.length = 10 := by
    omega
  have hf0 : (procSnips adv false 15 s0 0 []).2.1 = 10 := by
    rw [procSnips_fetched adv false 15 s0 0 [], hlen0]
    norm_num
  rw [hf0]
  rw [searchLoop_step term fetch 15 adv false k 10 (0 + 10) _ s1
    (by norm_num) (by rw [show ((0 : Int) + 10) = 10 from by norm_num]; exact h1) hne1]
  have hc1 : ((procSnips adv false 15 s1 10 ((procSnips adv false 15 s0 0 []).2.2)).1.length : Int)
      = min (s1.length : Int) (15 - 10) :=
    procSnips_count adv 15 s1 10 _ ha1 (by norm_num)
  rw [hl1] at hc1
  have hlen1 : (procSnips adv false 15 s1 10 ((procSnips adv false 15 s0 0 []).2.2)).1.length = 5 := by
    omega
  have hf1 : (procSnips adv false 15 s1 10 ((procSnips adv false 15 s0 0 []).2.2)).2.1 = 15 := by
    rw [procSnips_fetched adv false 15 s1 10 _, hlen1]
    norm_num
  rw [hf1]
  rw [searchLoop_done term fetch 15 adv false k 15 (0 + 10 + 10) _ (by norm_num)]
  refine ⟨?_, ?_, ?_, rfl⟩
  · simp [hlen0, hlen1]
  · simp [show ((0 : Int) + 10) = 10 from by norm_num]
  · intro p hp
    simp [show ((0 : Int) + 10) = 10 from by norm_num] at hp
    rcases hp with h | h <;> simp [h]


/-- C4: first page yields 10 results, the second fetch raises
(`RequestFailure`): the trace holds the 10 first-page values, then the
single failing call ends the sequence — the error is not retried (exactly
two calls are made) and the already-yielded values stand. -/
theorem search_error_second_page (term : String) (fetch : Fetcher)
    (adv : Bool) (N : Int) (s0 : List Snippet) (start : Int) (fuel : Nat)
    (h0 : fetch ⟨term, start, 10⟩ = .ok s0) (hl0 : s0.length = 10)
    (ha0 : ∀ s ∈ s0, s.anchor.isSome = true)
    (h1 : fetch ⟨term, start + 10, 10⟩ = .fail)
    (hN : 10 < N) (hfuel : 2 ≤ fuel) :
    (searchRun term fetch N adv false start fuel).yields.length = 10 ∧
      (searchRun term fetch N adv false start fuel).calls
        = [⟨term, start, 10⟩, ⟨term, start + 10, 10⟩] ∧
      (searchRun term fetch N adv false start fuel).outcome = .failed := by
  obtain ⟨k, rfl⟩ : ∃ k, fuel = k + 1 + 1 := ⟨fuel - 2, by omega⟩
  have hne0 : s0 ≠ [] := by intro e; rw [e] at hl0; simp at hl0
  unfold searchRun
  rw [searchLoop_step term fetch N adv false (k + 1) 0 start [] s0 (by omega) h0 hne0]
  have hc0 : ((procSnips adv false N s0 0 []).1.length : Int)
      = min (s0.length : Int) (N - 0) :=
    procSnips_count adv N s0 0 [] ha0 (by omega)
  rw [hl0] at hc0
  have hlen0 : (procSnips adv false N s0 0 []).1.length = 10 := by omega
  have hf0 : (procSnips adv false N s0 0 []).2.1 = 10 := by
    rw [procSnips_fetched adv false N s0 0 [], hlen0]
    norm_num
  rw [hf0]
  rw [searchLoop_fail term fetch N adv false k 10 (start + 10) _ (by omega) h1]
  exact ⟨by simp [hlen0], rfl, rfl⟩


lemma procSnips_unique (adv : Bool) (N : Int) :
    ∀ (snips : List Snippet) (fetched : Int) (seen : List String),
      (((procSnips adv true N snips fetched seen).1.map OutVal.url).Nodup ∧
        (∀ u ∈ (procSnips adv true N snips fetched seen).1.map OutVal.url,
          u ∉ seen)) ∧
      (∀ u ∈ seen, u ∈ (procSnips adv true N snips fetched seen).2.2) ∧
      (∀ u ∈ (procSnips adv true N snips fetched seen).1.map OutVal.url,
        u ∈ (procSnips adv true N snips fetched seen).2.2) := by
  intro snips
  induction snips with
  | nil =>
    intro fetched seen
    simp [procSnips]
  | cons snip rest ih =>
    intro fetched seen
    cases hsnip : snip.anchor with
    | none => simpa [procSnips, hsnip] using ih fetched seen
    | some a =>
      by_cases hmem : unwrapBraveRedirect a.href ∈ seen
      · simpa [procSnips, hsnip, hmem] using ih fetched seen
      · by_cases hbr : N ≤ fetched + 1
        · simp [procSnips, hsnip, hmem, hbr, outUrl_mk]
          exact fun u h => Or.inl h
        · obtain ⟨⟨ih1, ih2⟩, ih3, ih4⟩ :=
            ih (fetched + 1) (seen ++ [unwrapBraveRedirect a.href])
          simp [procSnips, hsnip, hmem, hbr, outUrl_mk]
          refine ⟨⟨⟨fun x hx heq => ?_, ih1⟩, fun x hx hs => ?_⟩,
            fun u hs => ?_, ?_, fun x hx => ?_⟩
          · exact (ih2 _ (List.mem_map_of_mem OutVal.url hx)) (by simp [heq])
          · exact (ih2 _ (List.mem_map_of_mem OutVal.url hx))
              (List.mem_append_left _ hs)
          · exact ih3 u (List.mem_append_left _ hs)
          · exact ih3 _ (by simp)
          · exact ih4 _ (List.mem_map_of_mem OutVal.url hx)


lemma searchLoop_fetchedCount (term : String) (fetch : Fetcher) (N : Int)
    (adv uniq : Bool) :
    ∀ (fuel : Nat) (fetched offset : Int) (seen : List String),
      (searchLoop term fetch N adv uniq fuel fetched offset seen).finalFetched
        = fetched +
          ((searchLoop term fetch N adv uniq fuel fetched offset seen).yields.length : Int) := by
  intro fuel
  induction fuel with
  | zero =>
    intro fetched offset seen
    by_cases h : fetched < N <;> simp [searchLoop, h]
  | succ fuel ih =>
    intro fetched offset seen
    by_cases hlt : fetched < N
    · cases hfr : fetch ⟨term, offset, 10⟩ with
      | fail => simp [searchLoop_fail term fetch N adv uniq fuel fetched offset seen hlt hfr]
      | ok snips =>
        cases snips with
        | nil =>
          simp [searchLoop_emptyPage term fetch N adv uniq fuel fetched offset seen hlt hfr]
        | cons s rest =>
          rw [searchLoop_step term fetch N adv uniq fuel fetched offset seen
            (s :: rest) hlt hfr (by simp)]
          simp [ih, procSnips_fetched]
          omega
    · simp [searchLoop_done term fetch N adv uniq (fuel + 1) fetched offset seen hlt]

lemma searchLoop_unique (term : String) (fetch : Fetcher) (N : Int) (adv : Bool) :
    ∀ (fuel : Nat) (fetched offset : Int) (seen : List String),
      ((searchLoop term fetch N adv true fuel fetched offset seen).yields.map
          OutVal.url).Nodup ∧
        ∀ u ∈ (searchLoop term fetch N adv true fuel fetched offset seen).yields.map
          OutVal.url, u ∉ seen := by
  intro fuel
  induction fuel with
  | zero =>
    intro fetched offset seen
    by_cases h : fetched < N <;> simp [searchLoop, h]
  | succ fuel ih =>
    intro fetched offset seen
    by_cases hlt : fetched < N
    · cases hfr : fetch ⟨term, offset, 10⟩ with
      | fail => simp [searchLoop_fail term fetch N adv true fuel fetched offset seen hlt hfr]
      | ok snips =>
        cases snips with
        | nil =>
          simp [searchLoop_emptyPage term fetch N adv true fuel fetched offset seen hlt hfr]
        | cons s rest =>
          rw [searchLoop_step term fetch N adv true fuel fetched offset seen
            (s :: rest) hlt hfr (by simp)]
          obtain ⟨⟨p1, p2⟩, p3, p4⟩ := procSnips_unique adv N (s :: rest) fetched seen
          obtain ⟨q1, q2⟩ := ih (procSnips adv true N (s :: rest) fetched seen).2.1
            (offset + 10) (procSnips adv true N (s :: rest) fetched seen).2.2
          constructor
          · rw [List.map_append, List.nodup_append]
            exact ⟨p1, q1, fun u hu hr => q2 u hr (p4 u hu)⟩
          · intro u hu
            rw [List.map_append, List.mem_append] at hu
            rcases hu with h | h
            · exact p2 u h
            · exact fun hs => q2 u h (p3 u hs)
    · simp [searchLoop_done term fetch N adv true (fuel + 1) fetched offset seen hlt]

/-- C3: with `unique=True` no resolved URL is ever yielded twice, and the
final `fetched` counter equals the number of yielded values — `fetched`
moves only when a not-yet-seen URL is yielded, duplicates are skipped
without counting. -/
theorem search_unique_nodup (term : String) (fetch : Fetcher) (N : Int)
    (adv : Bool) (start : Int) (fuel : Nat) :
    ((searchRun term fetch N adv true start fuel).yields.map OutVal.url).Nodup ∧
      (searchRun term fetch N adv true start fuel).finalFetched
        = ((searchRun term fetch N adv true start fuel).yields.length : Int) := by
  refine ⟨(searchLoop_unique term fetch N adv fuel 0 start []).1, ?_⟩
  have h := searchLoop_fetchedCount term fetch N adv true fuel 0 start []
  simpa [searchRun] using h


/-- Mocked page of 10 anchored snippets with distinct hrefs, for the
orchestrator witnesses. -/
def wPage (base : Nat) : List Snippet :=
  (List.range 10).map (fun k => ⟨some ⟨Nat.repr (base + k), ""⟩, none⟩)

/-- Mocked fetcher: two full pages at offsets 0 and 10, empty afterwards. -/
def wFetch : Fetcher := fun p =>
  if p.offset = 0 then .ok (wPage 0)
  else if p.offset = 10 then .ok (wPage 10)
  else .ok []

/-- Mocked fetcher: a full page at offset 0, transport failure afterwards. -/
def wFetchFail : Fetcher := fun p =>
  if p.offset = 0 then .ok (wPage 0) else .fail

/-- Witness for C1: a concrete mocked fetcher with two 10-hit pages. -/
theorem search_fifteen_two_pages_witness :
    (searchRun "q" wFetch 15 false false 0 2).yields.length = 15 ∧
      (searchRun "q" wFetch 15 false false 0 2).calls
        = [⟨"q", 0, 10⟩, ⟨"q", 10, 10⟩] ∧
      (∀ p ∈ (searchRun "q" wFetch 15 false false 0 2).calls, p.count = 10) ∧
      (searchRun "q" wFetch 15 false false 0 2).outcome = .finished :=
  search_fifteen_two_pages "q" wFetch false (wPage 0) (wPage 10) 2
    (by decide) (by decide) (by decide) (by decide) (by decide) (by decide)
    (by norm_num)

/-- Witness for C4: a concrete fetcher failing from the second page on. -/
theorem search_error_second_page_witness :
    (searchRun "q" wFetchFail 15 false false 0 2).yields.length = 10 ∧
      (searchRun "q" wFetchFail 15 false false 0 2).calls
        = [⟨"q", 0, 10⟩, ⟨"q", (0 : Int) + 10, 10⟩] ∧
      (searchRun "q" wFetchFail 15 false false 0 2).outcome = .failed :=
  search_error_second_page "q" wFetchFail false 15 (wPage 0) 0 2
    (by decide) (by decide) (by decide) (by decide) (by norm_num) (by norm_num)

end Brave
